import Mathlib

/-!
Shallow embedding of the client-side page controller found in
src/markdoc/markdoc-hugo-integration/src/helperModules/ClientRenderer.ts.

JavaScript records (plain objects used as string-keyed maps) are embedded
as association lists in insertion order: assignment updates an existing
key in place and otherwise appends at the end, and iteration over keys
follows list order, exactly as Object.keys does for string keys.

The collaborators imported by ClientRenderer.ts from outside src/
(the expression evaluator reresolveFunctionNode, the preference resolver
resolveMinifiedPagePrefs, and the codec expandClientFunction) are modelled
from the spec; each such definition carries a doc comment saying so.
Thrown JavaScript exceptions are embedded as the error case of Except.
-/

namespace ClientRendererModel

/-- Lookup in a JavaScript-record embedding: the value at the first
matching key, or none when the key is absent. -/
def recLookup {α : Type} : List (String × α) → String → Option α
  | [], _ => none
  | p :: rest, k => if p.1 = k then some p.2 else recLookup rest k

/-- Whether a JavaScript-record embedding has the given key. -/
def recHasKey {α : Type} : List (String × α) → String → Bool
  | [], _ => false
  | p :: rest, k => p.1 == k || recHasKey rest k

/-- JavaScript-record assignment: update the existing key in place,
or append a fresh entry at the end. -/
def recUpdate {α : Type} (m : List (String × α)) (k : String) (v : α) :
    List (String × α) :=
  if recHasKey m k then m.map (fun p => if p.1 = k then (k, v) else p)
  else m ++ [(k, v)]

/-- The keys of a JavaScript-record embedding, in insertion order. -/
def recKeys {α : Type} (m : List (String × α)) : List String :=
  m.map (fun p => p.1)

/-- Modelled from the spec: the boolean condition tree of a ClientFunction
(markdoc-static-compiler is not under src/). Node kinds per spec section 4.2:
equality and inequality comparison of a preference variable against a
literal option value, conjunction, disjunction, negation. -/
inductive CondTree : Type
  | eqCmp (prefId lit : String)
  | neCmp (prefId lit : String)
  | conj (a b : CondTree)
  | disj (a b : CondTree)
  | neg (a : CondTree)
deriving DecidableEq

/-- Modelled from the spec: evaluation of a condition tree against the
variable bindings (the selection state). An unresolved variable reference
is a fatal configuration error, not a silent false. -/
def evalTree : CondTree → List (String × String) → Except String Bool
  | CondTree.eqCmp p lit, b =>
    match recLookup b p with
    | some v => Except.ok (v == lit)
    | none => Except.error ("Unresolved variable reference: " ++ p)
  | CondTree.neCmp p lit, b =>
    match recLookup b p with
    | some v => Except.ok (v != lit)
    | none => Except.error ("Unresolved variable reference: " ++ p)
  | CondTree.conj a c, b => do
    let x ← evalTree a b
    let y ← evalTree c b
    Except.ok (x && y)
  | CondTree.disj a c, b => do
    let x ← evalTree a b
    let y ← evalTree c b
    Except.ok (x || y)
  | CondTree.neg a, b => do
    let x ← evalTree a b
    Except.ok (!x)

/-- A ClientFunction: a condition tree together with its current
(possibly stale) boolean value. -/
structure ClientFunction where
  tree : CondTree
  value : Bool
deriving DecidableEq

/-- Modelled from the spec: reresolveFunctionNode from
markdoc-static-compiler (not under src/). A pure function of the tree and
the bindings: it recomputes the value and keeps the tree. -/
def reresolveFunctionNode (f : ClientFunction) (vars : List (String × String)) :
    Except String ClientFunction :=
  (evalTree f.tree vars).map (fun v => { tree := f.tree, value := v })

/-- Modelled from the spec: the compact wire encoding of a ClientFunction.
The codec is an external collaborator specified only as a pure
encode/decode pair, so the compact form carries the same information. -/
structure MinifiedClientFunction where
  tree : CondTree
  value : Bool
deriving DecidableEq

/-- Modelled from the spec: expandClientFunction, the decoding half of the
external codec (dataCompression is not under src/). -/
def expandClientFunction (m : MinifiedClientFunction) : ClientFunction :=
  { tree := m.tree, value := m.value }

/-- A resolved preference: its identifier, the concretized option list,
and the current selected option identifier. -/
structure ResolvedPref where
  id : String
  options : List String
  currentValue : String
deriving DecidableEq

/-- Modelled from the spec: a preference definition. The option template is
embedded as a function from the already-resolved selections to the
concrete option list, which covers interpolation of earlier selections. -/
structure PrefDef where
  id : String
  optionsTemplate : List (String × String) → List String
  defaultValue : String

/-- Modelled from the spec: the current value kept for one preference
during resolution. A selected value present in the concrete option list is
kept; an absent or invalid one falls back to the declared default. -/
def resolveCurrent (env : List (String × String)) (d : PrefDef)
    (opts : List String) : String :=
  match recLookup env d.id with
  | some v => if opts.contains v then v else d.defaultValue
  | none => d.defaultValue

/-- Modelled from the spec: resolveMinifiedPagePrefs (sharedRendering is
not under src/). Definitions are processed in order; each template is
interpolated against the selections as corrected so far; a selected value
absent from the concrete list falls back to the default; the corrected
selection is recorded so later templates see it; an empty concretized
option list is a fatal configuration error. -/
def resolvePagePrefs : List PrefDef → List (String × String) →
    Except String (List ResolvedPref)
  | [], _ => Except.ok []
  | d :: rest, env =>
    let opts := d.optionsTemplate env
    if opts.isEmpty then
      Except.error ("Empty concretized option list for preference " ++ d.id)
    else
      let cur := resolveCurrent env d opts
      (resolvePagePrefs rest (recUpdate env d.id cur)).map
        (fun tail => { id := d.id, options := opts, currentValue := cur } :: tail)

/-- The mutable state of the ClientRenderer singleton. The two
configuration records consumed only by the spec-modelled resolver are
collapsed into pagePrefsConfig plus a presence flag; the chooser element
is kept as a presence flag since only its absence is observable here. -/
structure RendererState where
  pagePrefsConfig : Option (List PrefDef)
  prefOptionsConfigPresent : Bool
  chooserElementPresent : Bool
  selectedValsByPrefId : List (String × String)
  ifFunctionsByRef : List (String × ClientFunction)

/-- The class toggled on content blocks. -/
def hiddenClass : String := "markdoc__hidden"

/-- A toggleable content block: its data-if attribute (none when the
attribute is absent) and its class list. -/
structure Toggleable where
  dataIf : Option String
  classes : List String
deriving DecidableEq

/-- classList.add: append the token unless already present. -/
def classListAdd (cs : List String) (c : String) : List String :=
  if cs.contains c then cs else cs ++ [c]

/-- classList.remove: drop every occurrence of the token. -/
def classListRemove (cs : List String) (c : String) : List String :=
  cs.filter (fun x => !(x == c))

/-- Whether a toggleable block currently carries a class. -/
def hasClass (t : Toggleable) (c : String) : Bool :=
  t.classes.contains c

/-- A heading element inside the main content region: its level (2..6),
its id and text, and the class lists of itself and its ancestors in order
(self first), which is what the hidden check walks. -/
structure Header where
  level : Nat
  id : String
  text : String
  classChain : List (List String)
deriving DecidableEq

/-- elementIsHidden from ClientRenderer.ts: walk the element and its
ancestors looking for the hidden class. -/
def elementIsHidden (chain : List (List String)) : Bool :=
  chain.any (fun cls => cls.contains hiddenClass)

/-- The li entry emitted for one heading by populateRightNav. -/
def navEntry (h : Header) : String :=
  "<li><a href=\"#" ++ h.id ++ "\">" ++ h.text ++ "</a></li>"

/-- One iteration of the populateRightNav loop: skip hidden headings,
open one nested list when the level rose, close one when it fell,
then emit the entry and remember the level. -/
def navStep (acc : String × Nat) (h : Header) : String × Nat :=
  if elementIsHidden h.classChain then acc
  else
    let html :=
      if h.level > acc.2 then acc.1 ++ "<ul>"
      else if h.level < acc.2 then acc.1 ++ "</ul>"
      else acc.1
    (html ++ navEntry h, h.level)

/-- The html string built by populateRightNav from the headings, starting
from an open list and a last seen level of 2. -/
def navHtml (headers : List Header) : String :=
  (headers.foldl navStep ("<ul>", 2)).1 ++ "</ul>"

/-- The document as seen by the renderer: the toggleable content blocks in
document order, the headings of the main content region in reading order,
whether the element with id TableOfContents exists, and its current
innerHTML. -/
structure Dom where
  toggleables : List Toggleable
  headers : List Header
  rightNavPresent : Bool
  rightNavHtml : String
deriving DecidableEq

/-- populateRightNav from ClientRenderer.ts: build the list html, then
write it into the right nav element, a missing element being fatal. -/
def populateRightNav (dom : Dom) : Except String Dom :=
  let html := navHtml dom.headers
  if dom.rightNavPresent then Except.ok { dom with rightNavHtml := html }
  else Except.error "Cannot find right nav element with id \"TableOfContents\""

/-- The first phase of rerenderPageContent: walk the stored functions in
key order, reresolve each against the current selections, store the result
back, and record the new value of every reference whose value changed. -/
def updateFuncs : List (String × ClientFunction) → List (String × String) →
    Except String (List (String × ClientFunction) × List (String × Bool))
  | [], _ => Except.ok ([], [])
  | (ref, f) :: rest, vars => do
    let rf ← reresolveFunctionNode f vars
    let (rest', changed) ← updateFuncs rest vars
    if f.value = rf.value then Except.ok ((ref, rf) :: rest', changed)
    else Except.ok ((ref, rf) :: rest', (ref, rf.value) :: changed)

/-- The error thrown for a toggleable block without a usable data-if
attribute (getAttribute yields null for a missing attribute and the code
also rejects an empty string via truthiness). -/
def noRefError : String := "No ref found on toggleable element"

/-- The second phase of rerenderPageContent, for one block: a missing or
empty reference is fatal; a reference absent from the changed map leaves
the block untouched; otherwise the hidden class is removed or added to
match the new value. -/
def applyToggleable (status : List (String × Bool)) (t : Toggleable) :
    Except String Toggleable :=
  match t.dataIf with
  | none => Except.error noRefError
  | some ref =>
    if ref = "" then Except.error noRefError
    else
      match recLookup status ref with
      | none => Except.ok t
      | some true => Except.ok { t with classes := classListRemove t.classes hiddenClass }
      | some false => Except.ok { t with classes := classListAdd t.classes hiddenClass }

/-- The second phase of rerenderPageContent over all blocks in document
order, stopping at the first fatal block. -/
def applyStatus : List Toggleable → List (String × Bool) →
    Except String (List Toggleable)
  | [], _ => Except.ok []
  | t :: rest, status => do
    let t' ← applyToggleable status t
    let rest' ← applyStatus rest status
    Except.ok (t' :: rest')

/-- rerenderPageContent from ClientRenderer.ts: reresolve every stored
function against the current selections, collect the changed references,
then toggle exactly the blocks whose reference appears in the changed map. -/
def rerenderPageContent (st : RendererState) (dom : Dom) :
    Except String (RendererState × Dom) := do
  let (funcs, status) ← updateFuncs st.ifFunctionsByRef st.selectedValsByPrefId
  let ts ← applyStatus dom.toggleables status
  Except.ok ({ st with ifFunctionsByRef := funcs }, { dom with toggleables := ts })

/-- The error thrown by rerenderChooser when configuration is missing. -/
def chooserConfigError : String :=
  "Cannot rerender chooser without pagePrefsConfig, prefOptionsConfig, and chooserElement"

/-- The correction loop of rerenderChooser: write every resolved current
value back into the selection state, in resolution order. -/
def chooserCorrect (resolved : List ResolvedPref) (env : List (String × String)) :
    List (String × String) :=
  resolved.foldl (fun e p => recUpdate e p.id p.currentValue) env

/-- rerenderChooser from ClientRenderer.ts: missing configuration is
fatal; otherwise resolve the page preferences against the current
selections and write every resolved current value back into the selection
state, so previously selected values invalidated by the cascade are
overridden by the resolved ones. The chooser markup replacement and
handler rewiring have no observable effect on the modelled state. -/
def rerenderChooser (st : RendererState) : Except String RendererState :=
  match st.pagePrefsConfig with
  | none => Except.error chooserConfigError
  | some defs =>
    if st.prefOptionsConfigPresent && st.chooserElementPresent then
      (resolvePagePrefs defs st.selectedValsByPrefId).map (fun resolved =>
        { st with selectedValsByPrefId := chooserCorrect resolved st.selectedValsByPrefId })
    else Except.error chooserConfigError

/-- JavaScript truthiness applied to a getAttribute result: null and the
empty string are both falsy. -/
def attrPresent (v : Option String) : Option String :=
  match v with
  | none => none
  | some s => if s = "" then none else some s

/-- handlePrefSelectionChange from ClientRenderer.ts. The event target is
none when it is not an Element, otherwise its attribute record. A target
without usable pref and option attributes is silently ignored; otherwise
the selection is written and the chooser, the page content and the right
nav are rerendered, in that order. -/
def handlePrefSelectionChange (st : RendererState) (dom : Dom)
    (target : Option (List (String × String))) :
    Except String (RendererState × Dom) :=
  match target with
  | none => Except.ok (st, dom)
  | some attrs =>
    match attrPresent (recLookup attrs "data-pref-id") with
    | none => Except.ok (st, dom)
    | some prefId =>
      match attrPresent (recLookup attrs "data-option-id") with
      | none => Except.ok (st, dom)
      | some optionId => do
        let st1 : RendererState :=
          { st with selectedValsByPrefId := recUpdate st.selectedValsByPrefId prefId optionId }
        let st2 ← rerenderChooser st1
        let (st3, dom1) ← rerenderPageContent st2 dom
        let dom2 ← populateRightNav dom1
        Except.ok (st3, dom2)

/-- The initialization input embedded in the page, plus whether the
chooser element is present in the document. -/
structure InitParams where
  pagePrefsConfig : List PrefDef
  selectedValsByPrefId : Option (List (String × String))
  ifFunctionsByRef : List (String × MinifiedClientFunction)
  chooserInDocument : Bool

/-- initialize from ClientRenderer.ts: store the configuration, default
the selections to empty, decode one ClientFunction per compact input entry
under the same reference key, and fail when the chooser element is absent
from the document. -/
def initRenderer (p : InitParams) : Except String RendererState :=
  let st : RendererState :=
    { pagePrefsConfig := some p.pagePrefsConfig
      prefOptionsConfigPresent := true
      chooserElementPresent := true
      selectedValsByPrefId := p.selectedValsByPrefId.getD []
      ifFunctionsByRef := p.ifFunctionsByRef.map (fun q => (q.1, expandClientFunction q.2)) }
  if p.chooserInDocument then Except.ok st
  else Except.error "Cannot find chooser element with id \"markdoc-chooser\""

/-! ### Basic lemmas about the record embedding and the Except monad -/

@[simp] theorem exceptBind_ok {ε α β : Type} (a : α) (f : α → Except ε β) :
    (Except.ok a >>= f : Except ε β) = f a := rfl

@[simp] theorem exceptBind_error {ε α β : Type} (e : ε) (f : α → Except ε β) :
    ((Except.error e : Except ε α) >>= f : Except ε β) = Except.error e := rfl

@[simp] theorem exceptMap_ok {ε α β : Type} (a : α) (f : α → β) :
    ((Except.ok a : Except ε α).map f) = Except.ok (f a) := rfl

@[simp] theorem exceptMap_error {ε α β : Type} (e : ε) (f : α → β) :
    ((Except.error e : Except ε α).map f) = (Except.error e : Except ε β) := rfl

theorem recLookup_eq_none_iff {α : Type} (m : List (String × α)) (k : String) :
    recLookup m k = none ↔ recHasKey m k = false := by
  induction m with
  | nil => simp [recLookup, recHasKey]
  | cons p rest ih =>
    by_cases hp : p.1 = k <;> simp [recLookup, recHasKey, hp, ih]

theorem recHasKey_iff_mem_keys {α : Type} (m : List (String × α)) (k : String) :
    recHasKey m k = true ↔ k ∈ recKeys m := by
  induction m with
  | nil => simp [recHasKey, recKeys]
  | cons p rest ih =>
    simp [recHasKey, recKeys, List.mem_cons, ih]
    constructor
    · rintro (h | h)
      · exact Or.inl h.symm
      · exact Or.inr h
    · rintro (h | h)
      · exact Or.inl h.symm
      · exact Or.inr h

theorem recLookup_map_update_self {α : Type} (m : List (String × α)) (k : String) (v : α)
    (h : recHasKey m k = true) :
    recLookup (m.map (fun p => if p.1 = k then (k, v) else p)) k = some v := by
  induction m with
  | nil => simp [recHasKey] at h
  | cons p rest ih =>
    by_cases hp : p.1 = k
    · simp [recLookup, hp]
    · have h' : recHasKey rest k = true := by
        simp [recHasKey] at h
        rcases h with h | h
        · exact absurd h hp
        · exact h
      simp [recLookup, hp, ih h']

theorem recLookup_append_self {α : Type} (m : List (String × α)) (k : String) (v : α)
    (h : recHasKey m k = false) :
    recLookup (m ++ [(k, v)]) k = some v := by
  induction m with
  | nil => simp [recLookup]
  | cons p rest ih =>
    simp [recHasKey] at h
    simp [recLookup, h.1, ih h.2]

theorem recLookup_recUpdate_self {α : Type} (m : List (String × α)) (k : String) (v : α) :
    recLookup (recUpdate m k v) k = some v := by
  unfold recUpdate
  cases h : recHasKey m k with
  | true => simp [recLookup_map_update_self m k v h]
  | false => simp [recLookup_append_self m k v h]

theorem recLookup_map_update_ne {α : Type} (m : List (String × α)) (k k' : String) (v : α)
    (hne : k' ≠ k) :
    recLookup (m.map (fun p => if p.1 = k' then (k', v) else p)) k = recLookup m k := by
  induction m with
  | nil => rfl
  | cons p rest ih =>
    by_cases hp : p.1 = k'
    · have hpk : ¬(p.1 = k) := by rw [hp]; exact hne
      simp [recLookup, hp, hne, hpk, ih]
    · have hkk : ¬(k = k') := fun h => hne h.symm
      by_cases hk : p.1 = k <;> simp [recLookup, hp, hk, hkk, ih]

theorem recLookup_append_ne {α : Type} (m : List (String × α)) (k k' : String) (v : α)
    (hne : k' ≠ k) : recLookup (m ++ [(k', v)]) k = recLookup m k := by
  induction m with
  | nil => simp [recLookup, hne]
  | cons p rest ih =>
    by_cases hp : p.1 = k <;> simp [recLookup, hp, ih]

theorem recLookup_recUpdate_ne {α : Type} (m : List (String × α)) (k k' : String) (v : α)
    (hne : k' ≠ k) : recLookup (recUpdate m k' v) k = recLookup m k := by
  unfold recUpdate
  cases h : recHasKey m k' with
  | true => simp [recLookup_map_update_ne m k k' v hne]
  | false => simp [recLookup_append_ne m k k' v hne]

/-! ### Lemmas about the expression update phase -/

theorem reresolve_ok_elim (f rf : ClientFunction) (vars : List (String × String))
    (h : reresolveFunctionNode f vars = Except.ok rf) :
    rf.tree = f.tree ∧ evalTree f.tree vars = Except.ok rf.value := by
  unfold reresolveFunctionNode at h
  cases he : evalTree f.tree vars with
  | error e => rw [he] at h; simp at h
  | ok v =>
    rw [he] at h
    simp at h
    rw [← h]
    exact ⟨rfl, rfl⟩

theorem updateFuncs_ok_cons (ref : String) (f : ClientFunction)
    (rest : List (String × ClientFunction)) (vars : List (String × String))
    (fs : List (String × ClientFunction)) (m : List (String × Bool))
    (h : updateFuncs ((ref, f) :: rest) vars = Except.ok (fs, m)) :
    ∃ rf rest' changed, reresolveFunctionNode f vars = Except.ok rf ∧
      updateFuncs rest vars = Except.ok (rest', changed) ∧
      fs = (ref, rf) :: rest' ∧
      m = (if f.value = rf.value then changed else (ref, rf.value) :: changed) := by
  unfold updateFuncs at h
  cases hrf : reresolveFunctionNode f vars with
  | error e => rw [hrf] at h; simp at h
  | ok rf =>
    rw [hrf] at h
    simp only [exceptBind_ok] at h
    cases hrec : updateFuncs rest vars with
    | error e => rw [hrec] at h; simp at h
    | ok pr =>
      obtain ⟨rest', changed⟩ := pr
      rw [hrec] at h
      simp only [exceptBind_ok] at h
      by_cases hv : f.value = rf.value
      · rw [if_pos hv] at h
        simp at h
        exact ⟨rf, rest', changed, rfl, rfl, h.1.symm, by rw [if_pos hv]; exact h.2.symm⟩
      · rw [if_neg hv] at h
        simp at h
        exact ⟨rf, rest', changed, rfl, rfl, h.1.symm, by rw [if_neg hv]; exact h.2.symm⟩

theorem updateFuncs_values (fs : List (String × ClientFunction))
    (vars : List (String × String)) (fs' : List (String × ClientFunction))
    (m : List (String × Bool))
    (h : updateFuncs fs vars = Except.ok (fs', m)) :
    ∀ ref f, recLookup fs' ref = some f →
      evalTree f.tree vars = Except.ok f.value := by
  induction fs generalizing fs' m with
  | nil =>
    intro ref f hl
    unfold updateFuncs at h
    simp at h
    rw [h.1] at hl
    simp [recLookup] at hl
  | cons p rest ih =>
    obtain ⟨r, g⟩ := p
    obtain ⟨rf, rest', changed, hrf, hrec, hfs, hm⟩ := updateFuncs_ok_cons r g rest vars fs' m h
    intro ref f hl
    rw [hfs] at hl
    by_cases hr : r = ref
    · simp [recLookup, hr] at hl
      obtain ⟨ht, hv⟩ := reresolve_ok_elim g rf vars hrf
      rw [← hl, ht]
      exact hv
    · simp [recLookup, hr] at hl
      exact ih rest' changed hrec ref f hl

theorem updateFuncs_keys (fs : List (String × ClientFunction))
    (vars : List (String × String)) (fs' : List (String × ClientFunction))
    (m : List (String × Bool))
    (h : updateFuncs fs vars = Except.ok (fs', m)) :
    recKeys fs' = recKeys fs := by
  induction fs generalizing fs' m with
  | nil =>
    unfold updateFuncs at h
    simp at h
    rw [h.1]
  | cons p rest ih =>
    obtain ⟨r, g⟩ := p
    obtain ⟨rf, rest', changed, hrf, hrec, hfs, hm⟩ := updateFuncs_ok_cons r g rest vars fs' m h
    rw [hfs]
    simp [recKeys] at ih ⊢
    exact ih rest' changed hrec

theorem updateFuncs_lookup_none (fs : List (String × ClientFunction))
    (vars : List (String × String)) (fs' : List (String × ClientFunction))
    (m : List (String × Bool))
    (h : updateFuncs fs vars = Except.ok (fs', m)) :
    ∀ ref, recLookup fs ref = none →
      recLookup fs' ref = none ∧ recLookup m ref = none := by
  induction fs generalizing fs' m with
  | nil =>
    intro ref _
    unfold updateFuncs at h
    simp at h
    rw [h.1, h.2]
    exact ⟨rfl, rfl⟩
  | cons p rest ih =>
    obtain ⟨r, g⟩ := p
    obtain ⟨rf, rest', changed, hrf, hrec, hfs, hm⟩ := updateFuncs_ok_cons r g rest vars fs' m h
    intro ref hl
    by_cases hr : r = ref
    · simp [recLookup, hr] at hl
    · simp [recLookup, hr] at hl
      obtain ⟨h1, h2⟩ := ih rest' changed hrec ref hl
      constructor
      · rw [hfs]; simp [recLookup, hr, h1]
      · rw [hm]
        by_cases hv : g.value = rf.value
        · rw [if_pos hv]; exact h2
        · rw [if_neg hv]; simp [recLookup, hr, h2]

theorem updateFuncs_lookup_found (fs : List (String × ClientFunction))
    (vars : List (String × String)) (fs' : List (String × ClientFunction))
    (m : List (String × Bool))
    (hnd : (recKeys fs).Nodup)
    (h : updateFuncs fs vars = Except.ok (fs', m)) :
    ∀ ref f, recLookup fs ref = some f →
      ∃ v, evalTree f.tree vars = Except.ok v ∧
        recLookup fs' ref = some { tree := f.tree, value := v } ∧
        recLookup m ref = (if f.value = v then none else some v) := by
  induction fs generalizing fs' m with
  | nil =>
    intro ref f hl
    simp [recLookup] at hl
  | cons p rest ih =>
    obtain ⟨r, g⟩ := p
    obtain ⟨rf, rest', changed, hrf, hrec, hfs, hm⟩ := updateFuncs_ok_cons r g rest vars fs' m h
    have hnd2 : r ∉ recKeys rest ∧ (recKeys rest).Nodup := by
      rw [show recKeys ((r, g) :: rest) = r :: recKeys rest from rfl,
        List.nodup_cons] at hnd
      exact hnd
    have hnd' : (recKeys rest).Nodup := hnd2.2
    have hrnot : recLookup rest r = none := by
      rw [recLookup_eq_none_iff]
      cases hk : recHasKey rest r with
      | false => rfl
      | true =>
        exact absurd ((recHasKey_iff_mem_keys rest r).mp hk) hnd2.1
    intro ref f hl
    obtain ⟨ht, hv⟩ := reresolve_ok_elim g rf vars hrf
    by_cases hr : r = ref
    · simp [recLookup, hr] at hl
      subst hr
      obtain ⟨hnone1, hnone2⟩ := updateFuncs_lookup_none rest vars rest' changed hrec r hrnot
      refine ⟨rf.value, ?_, ?_, ?_⟩
      · rw [← hl]; exact hv
      · rw [hfs]
        simp [recLookup]
        rw [← hl, ← ht]
      · rw [hm, ← hl]
        by_cases hgv : g.value = rf.value
        · rw [if_pos hgv, if_pos hgv]; exact hnone2
        · rw [if_neg hgv, if_neg hgv]; simp [recLookup]
    · simp [recLookup, hr] at hl
      obtain ⟨v, hv', hl', hm'⟩ := ih rest' changed hnd' hrec ref f hl
      refine ⟨v, hv', ?_, ?_⟩
      · rw [hfs]; simp [recLookup, hr, hl']
      · rw [hm]
        by_cases hgv : g.value = rf.value
        · rw [if_pos hgv]; exact hm'
        · rw [if_neg hgv]; simp [recLookup, hr, hm']

theorem updateFuncs_self (fs : List (String × ClientFunction))
    (vars : List (String × String)) (fs' : List (String × ClientFunction))
    (m : List (String × Bool))
    (h : updateFuncs fs vars = Except.ok (fs', m)) :
    updateFuncs fs' vars = Except.ok (fs', []) := by
  induction fs generalizing fs' m with
  | nil =>
    unfold updateFuncs at h
    simp at h
    rw [h.1]
    rfl
  | cons p rest ih =>
    obtain ⟨r, g⟩ := p
    obtain ⟨rf, rest', changed, hrf, hrec, hfs, hm⟩ := updateFuncs_ok_cons r g rest vars fs' m h
    obtain ⟨ht, hv⟩ := reresolve_ok_elim g rf vars hrf
    have hself : reresolveFunctionNode rf vars = Except.ok rf := by
      unfold reresolveFunctionNode
      rw [ht, hv]
      simp only [exceptMap_ok]
      rw [← ht]
    rw [hfs]
    unfold updateFuncs
    rw [hself]
    simp only [exceptBind_ok]
    rw [ih rest' changed hrec]
    simp only [exceptBind_ok]
    simp

/-! ### Lemmas about the DOM toggle phase -/

theorem applyToggleable_ok_elim (status : List (String × Bool)) (t t' : Toggleable)
    (h : applyToggleable status t = Except.ok t') :
    ∃ ref, t.dataIf = some ref ∧ ref ≠ "" ∧ t'.dataIf = some ref := by
  obtain ⟨d, cs⟩ := t
  cases d with
  | none => simp [applyToggleable] at h
  | some ref =>
    by_cases hr : ref = ""
    · simp [applyToggleable, hr] at h
    · refine ⟨ref, rfl, hr, ?_⟩
      cases hl : recLookup status ref with
      | none =>
        simp [applyToggleable, hr, hl] at h
        rw [← h]
      | some v =>
        cases v <;> simp [applyToggleable, hr, hl] at h <;> rw [← h]

theorem applyToggleable_error_msg (status : List (String × Bool)) (t : Toggleable)
    (e : String) (h : applyToggleable status t = Except.error e) : e = noRefError := by
  obtain ⟨d, cs⟩ := t
  cases d with
  | none =>
    simp [applyToggleable] at h
    exact h.symm
  | some ref =>
    by_cases hr : ref = ""
    · simp [applyToggleable, hr] at h
      exact h.symm
    · cases hl : recLookup status ref with
      | none => simp [applyToggleable, hr, hl] at h
      | some v => cases v <;> simp [applyToggleable, hr, hl] at h

theorem applyStatus_ok_cons (t : Toggleable) (rest : List Toggleable)
    (status : List (String × Bool)) (ts : List Toggleable)
    (h : applyStatus (t :: rest) status = Except.ok ts) :
    ∃ t' rest', applyToggleable status t = Except.ok t' ∧
      applyStatus rest status = Except.ok rest' ∧ ts = t' :: rest' := by
  unfold applyStatus at h
  cases ht : applyToggleable status t with
  | error e => rw [ht] at h; simp at h
  | ok t' =>
    rw [ht] at h
    simp only [exceptBind_ok] at h
    cases hr : applyStatus rest status with
    | error e => rw [hr] at h; simp at h
    | ok rest' =>
      rw [hr] at h
      simp at h
      exact ⟨t', rest', rfl, rfl, h.symm⟩

theorem applyStatus_get (ts : List Toggleable) (status : List (String × Bool))
    (ts' : List Toggleable) (h : applyStatus ts status = Except.ok ts') :
    ts'.length = ts.length ∧
    ∀ i (hi : i < ts.length) (hi' : i < ts'.length),
      applyToggleable status (ts.get ⟨i, hi⟩) = Except.ok (ts'.get ⟨i, hi'⟩) := by
  induction ts generalizing ts' with
  | nil =>
    unfold applyStatus at h
    simp at h
    subst h
    exact ⟨rfl, fun i hi => absurd hi (Nat.not_lt_zero i)⟩
  | cons t rest ih =>
    obtain ⟨t', rest', ht, hr, hts⟩ := applyStatus_ok_cons t rest status ts' h
    obtain ⟨hlen, hget⟩ := ih rest' hr
    subst hts
    refine ⟨by simp [hlen], ?_⟩
    intro i hi hi'
    cases i with
    | zero => exact ht
    | succ j =>
      exact hget j (Nat.lt_of_succ_lt_succ hi) (Nat.lt_of_succ_lt_succ hi')

theorem applyStatus_error_of_mem (ts : List Toggleable) (status : List (String × Bool))
    (t : Toggleable) (hmem : t ∈ ts) (hnone : t.dataIf = none) :
    applyStatus ts status = Except.error noRefError := by
  induction ts with
  | nil => cases hmem
  | cons u rest ih =>
    rcases List.mem_cons.mp hmem with h | h
    · subst h
      obtain ⟨d, cs⟩ := t
      have hd : d = none := hnone
      subst hd
      rfl
    · unfold applyStatus
      cases hu : applyToggleable status u with
      | error e =>
        simp only [exceptBind_error]
        rw [applyToggleable_error_msg status u e hu]
      | ok u' =>
        simp only [exceptBind_ok]
        rw [ih h]
        simp only [exceptBind_error]

theorem applyStatus_empty_of_ok (ts : List Toggleable) (status : List (String × Bool))
    (ts' : List Toggleable) (h : applyStatus ts status = Except.ok ts') :
    applyStatus ts' [] = Except.ok ts' := by
  induction ts generalizing ts' with
  | nil =>
    unfold applyStatus at h
    simp at h
    subst h
    rfl
  | cons t rest ih =>
    obtain ⟨t', rest', ht, hr, hts⟩ := applyStatus_ok_cons t rest status ts' h
    obtain ⟨ref, hd, hne, hd'⟩ := applyToggleable_ok_elim status t t' ht
    subst hts
    have hone : applyToggleable [] t' = Except.ok t' := by
      obtain ⟨d', cs'⟩ := t'
      have hdd : d' = some ref := hd'
      subst hdd
      simp [applyToggleable, hne, recLookup]
    unfold applyStatus
    rw [hone]
    simp only [exceptBind_ok]
    rw [ih rest' hr]
    simp only [exceptBind_ok]

theorem contains_classListRemove (cs : List String) (c : String) :
    (classListRemove cs c).contains c = false := by
  unfold classListRemove
  simp

theorem contains_classListAdd (cs : List String) (c : String) :
    (classListAdd cs c).contains c = true := by
  unfold classListAdd
  by_cases h : cs.contains c = true
  · rw [if_pos h]
    exact h
  · rw [if_neg h]
    simp

/-! ### Destructor for rerenderPageContent and rerenderChooser -/

theorem rerenderPageContent_ok_elim (st st' : RendererState) (dom dom' : Dom)
    (h : rerenderPageContent st dom = Except.ok (st', dom')) :
    ∃ fs m ts,
      updateFuncs st.ifFunctionsByRef st.selectedValsByPrefId = Except.ok (fs, m) ∧
      applyStatus dom.toggleables m = Except.ok ts ∧
      st' = { st with ifFunctionsByRef := fs } ∧
      dom' = { dom with toggleables := ts } := by
  unfold rerenderPageContent at h
  cases hup : updateFuncs st.ifFunctionsByRef st.selectedValsByPrefId with
  | error e => rw [hup] at h; simp at h
  | ok pr =>
    obtain ⟨fs, m⟩ := pr
    rw [hup] at h
    simp only [exceptBind_ok] at h
    cases happ : applyStatus dom.toggleables m with
    | error e => rw [happ] at h; simp at h
    | ok ts =>
      rw [happ] at h
      simp at h
      exact ⟨fs, m, ts, rfl, happ, h.1.symm, h.2.symm⟩

theorem rerenderChooser_ok_elim (st st' : RendererState)
    (h : rerenderChooser st = Except.ok st') :
    ∃ defs resolved, st.pagePrefsConfig = some defs ∧
      resolvePagePrefs defs st.selectedValsByPrefId = Except.ok resolved ∧
      st' = { st with selectedValsByPrefId := chooserCorrect resolved st.selectedValsByPrefId } := by
  unfold rerenderChooser at h
  cases hc : st.pagePrefsConfig with
  | none => rw [hc] at h; simp at h
  | some defs =>
    rw [hc] at h
    dsimp only at h
    by_cases hflags : st.prefOptionsConfigPresent && st.chooserElementPresent
    · rw [if_pos hflags] at h
      cases hres : resolvePagePrefs defs st.selectedValsByPrefId with
      | error e => rw [hres] at h; simp at h
      | ok resolved =>
        rw [hres] at h
        simp at h
        exact ⟨defs, resolved, rfl, hres, h.symm⟩
    · rw [if_neg hflags] at h
      simp at h

/-! ### Lemmas about the navigation builder and the resolver -/

theorem navStep_hidden (acc : String × Nat) (h : Header)
    (hh : elementIsHidden h.classChain = true) : navStep acc h = acc := by
  simp [navStep, hh]

theorem foldl_navStep_filter (headers : List Header) :
    ∀ acc : String × Nat,
      headers.foldl navStep acc =
        (headers.filter (fun h => !(elementIsHidden h.classChain))).foldl navStep acc := by
  induction headers with
  | nil => intro acc; rfl
  | cons h t ih =>
    intro acc
    cases hh : elementIsHidden h.classChain with
    | true =>
      rw [List.foldl_cons, navStep_hidden acc h hh, List.filter_cons]
      simp [hh]
      exact ih acc
    | false =>
      rw [List.foldl_cons, List.filter_cons]
      simp [hh]
      exact ih (navStep acc h)

theorem resolvePagePrefs_ids (defs : List PrefDef) (env : List (String × String))
    (res : List ResolvedPref) (h : resolvePagePrefs defs env = Except.ok res) :
    res.map (fun p => p.id) = defs.map (fun d => d.id) := by
  induction defs generalizing env res with
  | nil =>
    unfold resolvePagePrefs at h
    simp at h
    rw [h]
    rfl
  | cons d rest ih =>
    unfold resolvePagePrefs at h
    by_cases he : (d.optionsTemplate env).isEmpty
    · rw [if_pos he] at h; simp at h
    · rw [if_neg he] at h
      dsimp only at h
      cases hrec : resolvePagePrefs rest
          (recUpdate env d.id (resolveCurrent env d (d.optionsTemplate env))) with
      | error e => rw [hrec] at h; simp at h
      | ok tail =>
        rw [hrec] at h
        simp at h
        rw [← h]
        simp
        exact ih (recUpdate env d.id (resolveCurrent env d (d.optionsTemplate env))) tail hrec

theorem chooserCorrect_cons (q : ResolvedPref) (rest : List ResolvedPref)
    (env : List (String × String)) :
    chooserCorrect (q :: rest) env =
      chooserCorrect rest (recUpdate env q.id q.currentValue) := rfl

theorem recLookup_chooserCorrect_of_not_mem (ps : List ResolvedPref)
    (env : List (String × String)) (k : String)
    (h : ∀ q ∈ ps, q.id ≠ k) :
    recLookup (chooserCorrect ps env) k = recLookup env k := by
  induction ps generalizing env with
  | nil => rfl
  | cons q rest ih =>
    rw [chooserCorrect_cons]
    rw [ih (recUpdate env q.id q.currentValue) (fun r hr => h r (List.mem_cons_of_mem q hr))]
    exact recLookup_recUpdate_ne env k q.id q.currentValue (h q (List.mem_cons_self q rest))

theorem recLookup_chooserCorrect_mem (ps : List ResolvedPref)
    (env : List (String × String))
    (hnd : (ps.map (fun p => p.id)).Nodup) :
    ∀ p ∈ ps, recLookup (chooserCorrect ps env) p.id = some p.currentValue := by
  induction ps generalizing env with
  | nil => intro p hp; cases hp
  | cons q rest ih =>
    have hnd2 : (∀ r ∈ rest, r.id ≠ q.id) ∧ (rest.map (fun p => p.id)).Nodup := by
      rw [List.map_cons, List.nodup_cons] at hnd
      refine ⟨?_, hnd.2⟩
      intro r hr he
      exact hnd.1 (he ▸ List.mem_map_of_mem (fun p => p.id) hr)
    intro p hp
    rcases List.mem_cons.mp hp with hpq | hpr
    · subst hpq
      rw [chooserCorrect_cons]
      rw [recLookup_chooserCorrect_of_not_mem rest (recUpdate env p.id p.currentValue) p.id hnd2.1]
      exact recLookup_recUpdate_self env p.id p.currentValue
    · rw [chooserCorrect_cons]
      exact ih (recUpdate env q.id q.currentValue) hnd2.2 p hpr

/-! ### Handler helper lemmas -/

theorem handle_none_eq (st : RendererState) (dom : Dom) :
    handlePrefSelectionChange st dom none = Except.ok (st, dom) := rfl

theorem handle_noPref_eq (st : RendererState) (dom : Dom)
    (attrs : List (String × String))
    (hp : attrPresent (recLookup attrs "data-pref-id") = none) :
    handlePrefSelectionChange st dom (some attrs) = Except.ok (st, dom) := by
  unfold handlePrefSelectionChange
  dsimp only
  rw [hp]

theorem handle_noOption_eq (st : RendererState) (dom : Dom)
    (attrs : List (String × String)) (prefId : String)
    (hp : attrPresent (recLookup attrs "data-pref-id") = some prefId)
    (ho : attrPresent (recLookup attrs "data-option-id") = none) :
    handlePrefSelectionChange st dom (some attrs) = Except.ok (st, dom) := by
  unfold handlePrefSelectionChange
  dsimp only
  rw [hp]
  dsimp only
  rw [ho]

theorem handle_change_ok_elim (st st' : RendererState) (dom dom' : Dom)
    (attrs : List (String × String)) (prefId optionId : String)
    (hp : attrPresent (recLookup attrs "data-pref-id") = some prefId)
    (ho : attrPresent (recLookup attrs "data-option-id") = some optionId)
    (hok : handlePrefSelectionChange st dom (some attrs) = Except.ok (st', dom')) :
    ∃ st2 dom1,
      rerenderChooser
        { st with selectedValsByPrefId := recUpdate st.selectedValsByPrefId prefId optionId } =
        Except.ok st2 ∧
      rerenderPageContent st2 dom = Except.ok (st', dom1) ∧
      populateRightNav dom1 = Except.ok dom' := by
  unfold handlePrefSelectionChange at hok
  dsimp only at hok
  rw [hp] at hok
  dsimp only at hok
  rw [ho] at hok
  dsimp only at hok
  cases hch : rerenderChooser
      { st with selectedValsByPrefId := recUpdate st.selectedValsByPrefId prefId optionId } with
  | error e => rw [hch] at hok; simp at hok
  | ok st2 =>
    rw [hch] at hok
    simp only [exceptBind_ok] at hok
    cases hrr : rerenderPageContent st2 dom with
    | error e => rw [hrr] at hok; simp at hok
    | ok pr =>
      obtain ⟨st3, dom1⟩ := pr
      rw [hrr] at hok
      simp only [exceptBind_ok] at hok
      cases hnav : populateRightNav dom1 with
      | error e => rw [hnav] at hok; simp at hok
      | ok dom2 =>
        rw [hnav] at hok
        simp only [exceptBind_ok] at hok
        injection hok with hpair
        injection hpair with ha hb
        subst ha
        subst hb
        exact ⟨st2, dom1, rfl, hrr, hnav⟩

theorem applyToggleable_unchanged (status : List (String × Bool)) (t t' : Toggleable)
    (ref : String) (href : t.dataIf = some ref) (hm : recLookup status ref = none)
    (h : applyToggleable status t = Except.ok t') : t' = t := by
  obtain ⟨d, cs⟩ := t
  have hd : d = some ref := href
  subst hd
  by_cases hne : ref = ""
  · simp [applyToggleable, hne] at h
  · simp [applyToggleable, hne, hm] at h
    exact h.symm

theorem applyToggleable_toggled (status : List (String × Bool)) (t t' : Toggleable)
    (ref : String) (v : Bool) (href : t.dataIf = some ref)
    (hm : recLookup status ref = some v)
    (h : applyToggleable status t = Except.ok t') :
    hasClass t' hiddenClass = !v := by
  obtain ⟨d, cs⟩ := t
  have hd : d = some ref := href
  subst hd
  by_cases hne : ref = ""
  · simp [applyToggleable, hne] at h
  · cases v with
    | true =>
      simp [applyToggleable, hne, hm] at h
      rw [← h]
      exact contains_classListRemove cs hiddenClass
    | false =>
      simp [applyToggleable, hne, hm] at h
      rw [← h]
      exact contains_classListAdd cs hiddenClass

/-! ### Claim theorems -/

/-- Claim C4 counterexample: for the visible heading sequence H2 then H4,
the built navigation html opens exactly one nested list before the H4
entry, not the two the claim requires. -/
theorem navHtml_level_jump_counterexample :
    navHtml [{ level := 2, id := "a", text := "A", classChain := [[]] },
             { level := 4, id := "b", text := "B", classChain := [[]] }] =
      "<ul><li><a href=\"#a\">A</a></li><ul><li><a href=\"#b\">B</a></li></ul>" ∧
    navHtml [{ level := 2, id := "a", text := "A", classChain := [[]] },
             { level := 4, id := "b", text := "B", classChain := [[]] }] ≠
      "<ul><li><a href=\"#a\">A</a></li><ul><ul><li><a href=\"#b\">B</a></li></ul></ul>" := by
  exact ⟨rfl, by decide⟩

/-- Claim C4 (amended): on each visible heading, populateRightNav opens
exactly one nested list when the level rose relative to the previous
visible heading and closes exactly one when it fell, regardless of the
size of the jump; in particular a jump from level 2 to level 4 opens a
single nested list. -/
theorem navStep_one_list_per_change (html : String) (last : Nat) (h : Header)
    (hvis : elementIsHidden h.classChain = false) :
    (last < h.level → navStep (html, last) h = (html ++ "<ul>" ++ navEntry h, h.level)) ∧
    (h.level < last → navStep (html, last) h = (html ++ "</ul>" ++ navEntry h, h.level)) ∧
    (h.level = last → navStep (html, last) h = (html ++ navEntry h, h.level)) := by
  refine ⟨?_, ?_, ?_⟩
  · intro hl
    simp [navStep, hvis, hl]
  · intro hl
    have h1 : ¬(h.level > last) := by omega
    simp [navStep, hvis, h1, hl]
  · intro hl
    have h1 : ¬(h.level > last) := by omega
    have h2 : ¬(h.level < last) := by omega
    simp [navStep, hvis, h1, h2]

/-- Witness for the amended C4 theorem: the level-2 to level-4 jump of the
counterexample opens exactly one nested list. -/
theorem navStep_one_list_per_change_witness :
    navStep ("<ul>", 2) { level := 4, id := "b", text := "B", classChain := [[]] } =
      ("<ul>" ++ "<ul>" ++ navEntry { level := 4, id := "b", text := "B", classChain := [[]] }, 4) :=
  (navStep_one_list_per_change "<ul>" 2
    { level := 4, id := "b", text := "B", classChain := [[]] } rfl).1 (by decide)

/-- Claim C5: populateRightNav never emits an entry for a hidden heading
and a hidden heading does not affect the nesting of subsequent visible
headings: the built html equals the html built from the visible headings
alone, and the concrete sequence A, hidden B, C yields exactly A and C as
top-level entries. -/
theorem populateRightNav_skips_hidden (headers : List Header) :
    navHtml headers =
      navHtml (headers.filter (fun h => !(elementIsHidden h.classChain))) ∧
    navHtml [{ level := 2, id := "a", text := "A", classChain := [[]] },
             { level := 3, id := "b", text := "B", classChain := [["markdoc__hidden"]] },
             { level := 2, id := "c", text := "C", classChain := [[]] }] =
      "<ul><li><a href=\"#a\">A</a></li><li><a href=\"#c\">C</a></li></ul>" := by
  constructor
  · unfold navHtml
    rw [foldl_navStep_filter]
  · rfl

/-- Claim C6: populateRightNav raises a fatal error when the navigation
container with id TableOfContents is absent from the document. -/
theorem populateRightNav_missing_container_fatal (dom : Dom)
    (h : dom.rightNavPresent = false) :
    populateRightNav dom =
      Except.error "Cannot find right nav element with id \"TableOfContents\"" := by
  unfold populateRightNav
  rw [h]
  rfl

/-- Witness for C6 at a concrete document without the container. -/
theorem populateRightNav_missing_container_fatal_witness :
    populateRightNav { toggleables := [], headers := [], rightNavPresent := false, rightNavHtml := "" } =
      Except.error "Cannot find right nav element with id \"TableOfContents\"" :=
  populateRightNav_missing_container_fatal
    { toggleables := [], headers := [], rightNavPresent := false, rightNavHtml := "" } rfl

/-- Claim C7: handlePrefSelectionChange silently ignores an event whose
target is not an element, or lacks a usable preference identifier
attribute, or lacks a usable option identifier attribute: it succeeds,
leaves the state unchanged, and performs no re-render of the document. -/
theorem handle_ignores_unmatched_event (st : RendererState) (dom : Dom)
    (target : Option (List (String × String))) :
    (target = none → handlePrefSelectionChange st dom target = Except.ok (st, dom)) ∧
    (∀ attrs, target = some attrs →
      attrPresent (recLookup attrs "data-pref-id") = none →
      handlePrefSelectionChange st dom target = Except.ok (st, dom)) ∧
    (∀ attrs prefId, target = some attrs →
      attrPresent (recLookup attrs "data-pref-id") = some prefId →
      attrPresent (recLookup attrs "data-option-id") = none →
      handlePrefSelectionChange st dom target = Except.ok (st, dom)) := by
  refine ⟨?_, ?_, ?_⟩
  · rintro rfl
    rfl
  · rintro attrs rfl hp
    unfold handlePrefSelectionChange
    dsimp only
    rw [hp]
  · rintro attrs prefId rfl hp ho
    unfold handlePrefSelectionChange
    dsimp only
    rw [hp]
    dsimp only
    rw [ho]

/-- Witness for C7: the three silent-ignore cases at concrete inputs. -/
theorem handle_ignores_unmatched_event_witness :
    handlePrefSelectionChange
      { pagePrefsConfig := none, prefOptionsConfigPresent := false,
        chooserElementPresent := false, selectedValsByPrefId := [], ifFunctionsByRef := [] }
      { toggleables := [], headers := [], rightNavPresent := true, rightNavHtml := "" }
      none =
      Except.ok
        ({ pagePrefsConfig := none, prefOptionsConfigPresent := false,
           chooserElementPresent := false, selectedValsByPrefId := [], ifFunctionsByRef := [] },
         { toggleables := [], headers := [], rightNavPresent := true, rightNavHtml := "" }) ∧
    handlePrefSelectionChange
      { pagePrefsConfig := none, prefOptionsConfigPresent := false,
        chooserElementPresent := false, selectedValsByPrefId := [], ifFunctionsByRef := [] }
      { toggleables := [], headers := [], rightNavPresent := true, rightNavHtml := "" }
      (some [("class", "markdoc-pref__pill")]) =
      Except.ok
        ({ pagePrefsConfig := none, prefOptionsConfigPresent := false,
           chooserElementPresent := false, selectedValsByPrefId := [], ifFunctionsByRef := [] },
         { toggleables := [], headers := [], rightNavPresent := true, rightNavHtml := "" }) ∧
    handlePrefSelectionChange
      { pagePrefsConfig := none, prefOptionsConfigPresent := false,
        chooserElementPresent := false, selectedValsByPrefId := [], ifFunctionsByRef := [] }
      { toggleables := [], headers := [], rightNavPresent := true, rightNavHtml := "" }
      (some [("data-pref-id", "os")]) =
      Except.ok
        ({ pagePrefsConfig := none, prefOptionsConfigPresent := false,
           chooserElementPresent := false, selectedValsByPrefId := [], ifFunctionsByRef := [] },
         { toggleables := [], headers := [], rightNavPresent := true, rightNavHtml := "" }) := by
  refine ⟨?_, ?_, ?_⟩
  · exact (handle_ignores_unmatched_event _ _ none).1 rfl
  · exact (handle_ignores_unmatched_event _ _ _).2.1 [("class", "markdoc-pref__pill")] rfl rfl
  · exact (handle_ignores_unmatched_event _ _ _).2.2 [("data-pref-id", "os")] "os" rfl rfl rfl

/-- Claim C3 counterexample: a document block whose content reference has
no Expression entry in the stored mapping is silently skipped by
rerenderPageContent: the call succeeds and leaves the whole state and
document unchanged, instead of raising a fatal error. -/
theorem rerenderPageContent_orphan_counterexample :
    rerenderPageContent
      { pagePrefsConfig := some [], prefOptionsConfigPresent := true,
        chooserElementPresent := true, selectedValsByPrefId := [("os", "linux")],
        ifFunctionsByRef := [("x", { tree := CondTree.eqCmp "os" "linux", value := true })] }
      { toggleables := [{ dataIf := some "orphan", classes := [] }],
        headers := [], rightNavPresent := true, rightNavHtml := "" } =
      Except.ok
        ({ pagePrefsConfig := some [], prefOptionsConfigPresent := true,
           chooserElementPresent := true, selectedValsByPrefId := [("os", "linux")],
           ifFunctionsByRef := [("x", { tree := CondTree.eqCmp "os" "linux", value := true })] },
         { toggleables := [{ dataIf := some "orphan", classes := [] }],
           headers := [], rightNavPresent := true, rightNavHtml := "" }) := rfl

/-- Claim C3 (amended): rerenderPageContent raises its fatal error only
for a content block whose content-reference attribute is missing; a block
carrying a reference with no Expression entry is silently skipped and left
untouched, exactly like a block whose value did not change. -/
theorem rerenderPageContent_orphan_skipped (st : RendererState) (dom : Dom)
    (fs : List (String × ClientFunction)) (m : List (String × Bool))
    (ref : String) (cs : List String)
    (hup : updateFuncs st.ifFunctionsByRef st.selectedValsByPrefId = Except.ok (fs, m))
    (hne : ref ≠ "")
    (horphan : recLookup st.ifFunctionsByRef ref = none) :
    applyToggleable m { dataIf := some ref, classes := cs } =
      Except.ok { dataIf := some ref, classes := cs } ∧
    ((∃ t ∈ dom.toggleables, t.dataIf = none) →
      rerenderPageContent st dom = Except.error noRefError) := by
  constructor
  · have hm : recLookup m ref = none :=
      (updateFuncs_lookup_none st.ifFunctionsByRef st.selectedValsByPrefId fs m hup
        ref horphan).2
    simp [applyToggleable, hne, hm]
  · rintro ⟨t, hmem, hnone⟩
    unfold rerenderPageContent
    rw [hup]
    simp only [exceptBind_ok]
    rw [applyStatus_error_of_mem dom.toggleables m t hmem hnone]
    rfl

/-- Witness for the amended C3 theorem: the orphan reference case at a
concrete input. -/
theorem rerenderPageContent_orphan_skipped_witness :
    applyToggleable [] { dataIf := some "orphan", classes := [] } =
      Except.ok { dataIf := some "orphan", classes := [] } :=
  (rerenderPageContent_orphan_skipped
    { pagePrefsConfig := some [], prefOptionsConfigPresent := true,
      chooserElementPresent := true, selectedValsByPrefId := [], ifFunctionsByRef := [] }
    { toggleables := [], headers := [], rightNavPresent := true, rightNavHtml := "" }
    [] [] "orphan" [] rfl (by decide) rfl).1

/-- Claim C8: expression re-evaluation is idempotent and deterministic:
reresolving an already reresolved function against the same bindings
returns it unchanged, and a second rerenderPageContent pass under an
unchanged selection state finds an empty changed set and leaves the stored
functions and every content block exactly as they were. -/
theorem reevaluation_idempotent (st st' : RendererState) (dom dom' : Dom)
    (f rf : ClientFunction) (vars : List (String × String)) :
    (reresolveFunctionNode f vars = Except.ok rf →
      reresolveFunctionNode rf vars = Except.ok rf) ∧
    (rerenderPageContent st dom = Except.ok (st', dom') →
      rerenderPageContent st' dom' = Except.ok (st', dom')) := by
  constructor
  · intro h
    obtain ⟨ht, hv⟩ := reresolve_ok_elim f rf vars h
    unfold reresolveFunctionNode
    rw [ht, hv]
    simp only [exceptMap_ok]
    rw [← ht]
  · intro h
    obtain ⟨fs, m, ts, hup, happ, hst, hdom⟩ := rerenderPageContent_ok_elim st st' dom dom' h
    have hself : updateFuncs fs st.selectedValsByPrefId = Except.ok (fs, []) :=
      updateFuncs_self st.ifFunctionsByRef st.selectedValsByPrefId fs m hup
    have hts : applyStatus ts [] = Except.ok ts :=
      applyStatus_empty_of_ok dom.toggleables m ts happ
    subst hst
    subst hdom
    unfold rerenderPageContent
    dsimp only
    rw [hself]
    simp only [exceptBind_ok]
    rw [hts]
    simp only [exceptBind_ok]

/-- Witness for C8: idempotence and the empty second pass at concrete
inputs. -/
theorem reevaluation_idempotent_witness :
    reresolveFunctionNode { tree := CondTree.eqCmp "os" "linux", value := true }
        [("os", "linux")] =
      Except.ok { tree := CondTree.eqCmp "os" "linux", value := true } ∧
    rerenderPageContent
      { pagePrefsConfig := some [], prefOptionsConfigPresent := true,
        chooserElementPresent := true, selectedValsByPrefId := [("os", "linux")],
        ifFunctionsByRef := [("r", { tree := CondTree.eqCmp "os" "linux", value := true })] }
      { toggleables := [{ dataIf := some "r", classes := [] }],
        headers := [], rightNavPresent := true, rightNavHtml := "" } =
      Except.ok
        ({ pagePrefsConfig := some [], prefOptionsConfigPresent := true,
           chooserElementPresent := true, selectedValsByPrefId := [("os", "linux")],
           ifFunctionsByRef := [("r", { tree := CondTree.eqCmp "os" "linux", value := true })] },
         { toggleables := [{ dataIf := some "r", classes := [] }],
           headers := [], rightNavPresent := true, rightNavHtml := "" }) := by
  constructor
  · exact (reevaluation_idempotent
      { pagePrefsConfig := some [], prefOptionsConfigPresent := true,
        chooserElementPresent := true, selectedValsByPrefId := [], ifFunctionsByRef := [] }
      { pagePrefsConfig := some [], prefOptionsConfigPresent := true,
        chooserElementPresent := true, selectedValsByPrefId := [], ifFunctionsByRef := [] }
      { toggleables := [], headers := [], rightNavPresent := true, rightNavHtml := "" }
      { toggleables := [], headers := [], rightNavPresent := true, rightNavHtml := "" }
      { tree := CondTree.eqCmp "os" "linux", value := false }
      { tree := CondTree.eqCmp "os" "linux", value := true }
      [("os", "linux")]).1 rfl
  · exact (reevaluation_idempotent
      { pagePrefsConfig := some [], prefOptionsConfigPresent := true,
        chooserElementPresent := true, selectedValsByPrefId := [("os", "linux")],
        ifFunctionsByRef := [("r", { tree := CondTree.eqCmp "os" "linux", value := false })] }
      { pagePrefsConfig := some [], prefOptionsConfigPresent := true,
        chooserElementPresent := true, selectedValsByPrefId := [("os", "linux")],
        ifFunctionsByRef := [("r", { tree := CondTree.eqCmp "os" "linux", value := true })] }
      { toggleables := [{ dataIf := some "r", classes := ["markdoc__hidden"] }],
        headers := [], rightNavPresent := true, rightNavHtml := "" }
      { toggleables := [{ dataIf := some "r", classes := [] }],
        headers := [], rightNavPresent := true, rightNavHtml := "" }
      { tree := CondTree.eqCmp "os" "linux", value := false }
      { tree := CondTree.eqCmp "os" "linux", value := true }
      [("os", "linux")]).2 rfl

/-- Claim C9: the key set of the Expression mapping is created at
initialization with exactly one decoded entry per compact input entry and
is preserved, in order, by rerenderPageContent and by every handled
selection change. -/
theorem ifFunctions_keys_fixed (p : InitParams) (stInit st st' : RendererState)
    (dom dom' : Dom) (target : Option (List (String × String))) :
    (initRenderer p = Except.ok stInit →
      recKeys stInit.ifFunctionsByRef = recKeys p.ifFunctionsByRef) ∧
    (rerenderPageContent st dom = Except.ok (st', dom') →
      recKeys st'.ifFunctionsByRef = recKeys st.ifFunctionsByRef) ∧
    (handlePrefSelectionChange st dom target = Except.ok (st', dom') →
      recKeys st'.ifFunctionsByRef = recKeys st.ifFunctionsByRef) := by
  refine ⟨?_, ?_, ?_⟩
  · intro h
    unfold initRenderer at h
    by_cases hc : p.chooserInDocument
    · rw [if_pos hc] at h
      injection h with h2
      rw [← h2]
      unfold recKeys
      rw [List.map_map]
      rfl
    · rw [if_neg hc] at h
      simp at h
  · intro h
    obtain ⟨fs, m, ts, hup, happ, hst, hdom⟩ := rerenderPageContent_ok_elim st st' dom dom' h
    rw [hst]
    exact updateFuncs_keys st.ifFunctionsByRef st.selectedValsByPrefId fs m hup
  · intro h
    cases target with
    | none =>
      rw [handle_none_eq st dom] at h
      injection h with hpair
      injection hpair with ha hb
      rw [← ha]
    | some attrs =>
      cases hp : attrPresent (recLookup attrs "data-pref-id") with
      | none =>
        rw [handle_noPref_eq st dom attrs hp] at h
        injection h with hpair
        injection hpair with ha hb
        rw [← ha]
      | some prefId =>
        cases ho : attrPresent (recLookup attrs "data-option-id") with
        | none =>
          rw [handle_noOption_eq st dom attrs prefId hp ho] at h
          injection h with hpair
          injection hpair with ha hb
          rw [← ha]
        | some optionId =>
          obtain ⟨st2, dom1, hch, hrr, hnav⟩ :=
            handle_change_ok_elim st st' dom dom' attrs prefId optionId hp ho h
          obtain ⟨defs, resolved, hc2, hres, hst2⟩ := rerenderChooser_ok_elim _ st2 hch
          obtain ⟨fs, m, ts, hup, happ, hst, hdom⟩ :=
            rerenderPageContent_ok_elim st2 st' dom dom1 hrr
          rw [hst]
          have h2 := updateFuncs_keys st2.ifFunctionsByRef st2.selectedValsByPrefId fs m hup
      -- the chooser leaves the function mapping untouched
          rw [hst2] at h2
          exact h2

/-- Witness for C9: the three key-set preservation facts at concrete
inputs. -/
theorem ifFunctions_keys_fixed_witness :
    recKeys
      (({ pagePrefsConfig := some [], prefOptionsConfigPresent := true,
          chooserElementPresent := true, selectedValsByPrefId := [],
          ifFunctionsByRef := [("x", { tree := CondTree.eqCmp "os" "linux", value := false })] } :
        RendererState)).ifFunctionsByRef =
      recKeys [("x", ({ tree := CondTree.eqCmp "os" "linux", value := false } :
        MinifiedClientFunction))] :=
  (ifFunctions_keys_fixed
    { pagePrefsConfig := [], selectedValsByPrefId := none,
      ifFunctionsByRef := [("x", { tree := CondTree.eqCmp "os" "linux", value := false })],
      chooserInDocument := true }
    { pagePrefsConfig := some [], prefOptionsConfigPresent := true,
      chooserElementPresent := true, selectedValsByPrefId := [],
      ifFunctionsByRef := [("x", { tree := CondTree.eqCmp "os" "linux", value := false })] }
    { pagePrefsConfig := none, prefOptionsConfigPresent := false,
      chooserElementPresent := false, selectedValsByPrefId := [], ifFunctionsByRef := [] }
    { pagePrefsConfig := none, prefOptionsConfigPresent := false,
      chooserElementPresent := false, selectedValsByPrefId := [], ifFunctionsByRef := [] }
    { toggleables := [], headers := [], rightNavPresent := true, rightNavHtml := "" }
    { toggleables := [], headers := [], rightNavPresent := true, rightNavHtml := "" }
    none).1 rfl

/-- Claim C10: after every successful rerenderChooser call, the selection
state holds an explicit entry for every resolved preference, equal to that
preference resolved current value, and the resolved preferences cover the
whole page preference list in order, so the bindings seen by the following
re-evaluation pass are total over the page preferences. -/
theorem rerenderChooser_totalizes_selection (st st' : RendererState)
    (defs : List PrefDef)
    (hdefs : st.pagePrefsConfig = some defs)
    (hnd : (defs.map (fun d => d.id)).Nodup)
    (hok : rerenderChooser st = Except.ok st') :
    ∃ resolved, resolvePagePrefs defs st.selectedValsByPrefId = Except.ok resolved ∧
      resolved.map (fun p => p.id) = defs.map (fun d => d.id) ∧
      ∀ p ∈ resolved, recLookup st'.selectedValsByPrefId p.id = some p.currentValue := by
  obtain ⟨defs2, resolved, hc2, hres, hst⟩ := rerenderChooser_ok_elim st st' hok
  have hdd : defs2 = defs := by
    rw [hdefs] at hc2
    injection hc2 with h2
    exact h2.symm
  subst hdd
  have hids := resolvePagePrefs_ids defs2 st.selectedValsByPrefId resolved hres
  refine ⟨resolved, hres, hids, ?_⟩
  intro p hp
  rw [hst]
  exact recLookup_chooserCorrect_mem resolved st.selectedValsByPrefId
    (by rw [hids]; exact hnd) p hp

/-- Witness for C10: a page with one preference and no prior selection
gets an explicit default entry after the chooser pass. -/
theorem rerenderChooser_totalizes_selection_witness :
    ∃ resolved,
      resolvePagePrefs
        [{ id := "os", optionsTemplate := fun _ => ["linux", "windows"],
           defaultValue := "linux" }] [] = Except.ok resolved ∧
      resolved.map (fun p => p.id) =
        ([{ id := "os", optionsTemplate := fun _ => ["linux", "windows"],
            defaultValue := "linux" }] : List PrefDef).map (fun d => d.id) ∧
      ∀ p ∈ resolved,
        recLookup
          (({ pagePrefsConfig :=
                some [{ id := "os", optionsTemplate := fun _ => ["linux", "windows"],
                        defaultValue := "linux" }],
              prefOptionsConfigPresent := true, chooserElementPresent := true,
              selectedValsByPrefId := [("os", "linux")], ifFunctionsByRef := [] } :
            RendererState)).selectedValsByPrefId p.id = some p.currentValue :=
  rerenderChooser_totalizes_selection
    { pagePrefsConfig :=
        some [{ id := "os", optionsTemplate := fun _ => ["linux", "windows"],
                defaultValue := "linux" }],
      prefOptionsConfigPresent := true, chooserElementPresent := true,
      selectedValsByPrefId := [], ifFunctionsByRef := [] }
    { pagePrefsConfig :=
        some [{ id := "os", optionsTemplate := fun _ => ["linux", "windows"],
                defaultValue := "linux" }],
      prefOptionsConfigPresent := true, chooserElementPresent := true,
      selectedValsByPrefId := [("os", "linux")], ifFunctionsByRef := [] }
    [{ id := "os", optionsTemplate := fun _ => ["linux", "windows"],
       defaultValue := "linux" }]
    rfl (by simp) rfl

theorem bool_not_ne_iff (a b : Bool) : ((!a) ≠ b) ↔ b = a := by
  cases a <;> cases b <;> simp

/-- Claim C1: on every handled selection change, the chooser correction
completes before any expression is re-evaluated: the handler first obtains
the corrected state from rerenderChooser applied to the freshly written
selection, the final selection state is that corrected state, and every
stored expression value was computed by evaluating its tree against that
corrected state only. -/
theorem handle_visibility_from_corrected_state
    (st st' : RendererState) (dom dom' : Dom) (attrs : List (String × String))
    (prefId optionId : String)
    (hp : attrPresent (recLookup attrs "data-pref-id") = some prefId)
    (ho : attrPresent (recLookup attrs "data-option-id") = some optionId)
    (hok : handlePrefSelectionChange st dom (some attrs) = Except.ok (st', dom')) :
    ∃ stc,
      rerenderChooser
        { st with selectedValsByPrefId := recUpdate st.selectedValsByPrefId prefId optionId } =
        Except.ok stc ∧
      st'.selectedValsByPrefId = stc.selectedValsByPrefId ∧
      ∀ ref f, recLookup st'.ifFunctionsByRef ref = some f →
        evalTree f.tree stc.selectedValsByPrefId = Except.ok f.value := by
  obtain ⟨st2, dom1, hch, hrr, hnav⟩ :=
    handle_change_ok_elim st st' dom dom' attrs prefId optionId hp ho hok
  obtain ⟨fs, m, ts, hup, happ, hst, hdom⟩ :=
    rerenderPageContent_ok_elim st2 st' dom dom1 hrr
  refine ⟨st2, hch, ?_, ?_⟩
  · rw [hst]
  · intro ref f hl
    rw [hst] at hl
    exact updateFuncs_values st2.ifFunctionsByRef st2.selectedValsByPrefId fs m hup ref f hl

/-- Witness for C1: a full handled selection change at concrete inputs. -/
theorem handle_visibility_from_corrected_state_witness :
    ∃ stc,
      rerenderChooser
        { pagePrefsConfig := some [], prefOptionsConfigPresent := true,
          chooserElementPresent := true,
          selectedValsByPrefId := recUpdate [] "os" "linux",
          ifFunctionsByRef := [("r", { tree := CondTree.eqCmp "os" "linux", value := false })] } =
        Except.ok stc ∧
      (({ pagePrefsConfig := some [], prefOptionsConfigPresent := true,
          chooserElementPresent := true, selectedValsByPrefId := [("os", "linux")],
          ifFunctionsByRef := [("r", { tree := CondTree.eqCmp "os" "linux", value := true })] } :
        RendererState)).selectedValsByPrefId = stc.selectedValsByPrefId ∧
      ∀ ref f,
        recLookup
          (({ pagePrefsConfig := some [], prefOptionsConfigPresent := true,
              chooserElementPresent := true, selectedValsByPrefId := [("os", "linux")],
              ifFunctionsByRef := [("r", { tree := CondTree.eqCmp "os" "linux", value := true })] } :
            RendererState)).ifFunctionsByRef ref = some f →
        evalTree f.tree stc.selectedValsByPrefId = Except.ok f.value :=
  handle_visibility_from_corrected_state
    { pagePrefsConfig := some [], prefOptionsConfigPresent := true,
      chooserElementPresent := true, selectedValsByPrefId := [],
      ifFunctionsByRef := [("r", { tree := CondTree.eqCmp "os" "linux", value := false })] }
    { pagePrefsConfig := some [], prefOptionsConfigPresent := true,
      chooserElementPresent := true, selectedValsByPrefId := [("os", "linux")],
      ifFunctionsByRef := [("r", { tree := CondTree.eqCmp "os" "linux", value := true })] }
    { toggleables := [{ dataIf := some "r", classes := ["markdoc__hidden"] }],
      headers := [], rightNavPresent := true, rightNavHtml := "" }
    { toggleables := [{ dataIf := some "r", classes := [] }],
      headers := [], rightNavPresent := true, rightNavHtml := "<ul></ul>" }
    [("data-pref-id", "os"), ("data-option-id", "linux")]
    "os" "linux" rfl rfl rfl

/-- Claim C2: one rerenderPageContent pass changes exactly the blocks
whose expression value changed: the changed map holds precisely the
references whose stored value differs after re-evaluation, blocks whose
reference is not in the changed map are returned untouched, blocks whose
reference changed to value v end up with the hidden class exactly when v
is false, and when exactly one expression changed, a block flips its
visibility flag exactly when it carries that reference and its current
flag equals the new value. -/
theorem rerenderPageContent_minimal_diff (st st' : RendererState) (dom dom' : Dom)
    (fs : List (String × ClientFunction)) (m : List (String × Bool))
    (hnd : (recKeys st.ifFunctionsByRef).Nodup)
    (hup : updateFuncs st.ifFunctionsByRef st.selectedValsByPrefId = Except.ok (fs, m))
    (hok : rerenderPageContent st dom = Except.ok (st', dom')) :
    st'.ifFunctionsByRef = fs ∧
    dom'.toggleables.length = dom.toggleables.length ∧
    (∀ ref v, recLookup m ref = some v ↔
      ∃ f g, recLookup st.ifFunctionsByRef ref = some f ∧ recLookup fs ref = some g ∧
        f.value ≠ g.value ∧ v = g.value) ∧
    (∀ i (hi : i < dom.toggleables.length) (hi' : i < dom'.toggleables.length)
      (ref : String),
      (dom.toggleables.get ⟨i, hi⟩).dataIf = some ref →
      (recLookup m ref = none →
        dom'.toggleables.get ⟨i, hi'⟩ = dom.toggleables.get ⟨i, hi⟩) ∧
      (∀ v, recLookup m ref = some v →
        hasClass (dom'.toggleables.get ⟨i, hi'⟩) hiddenClass = !v)) ∧
    (∀ r v, m = [(r, v)] →
      ∀ i (hi : i < dom.toggleables.length) (hi' : i < dom'.toggleables.length),
        ((hasClass (dom'.toggleables.get ⟨i, hi'⟩) hiddenClass ≠
          hasClass (dom.toggleables.get ⟨i, hi⟩) hiddenClass) ↔
        ((dom.toggleables.get ⟨i, hi⟩).dataIf = some r ∧
          hasClass (dom.toggleables.get ⟨i, hi⟩) hiddenClass = v))) := by
  obtain ⟨fs2, m2, ts, hup2, happ, hst, hdom⟩ :=
    rerenderPageContent_ok_elim st st' dom dom' hok
  rw [hup] at hup2
  injection hup2 with hpair
  injection hpair with ha hb
  subst ha
  subst hb
  subst hst
  subst hdom
  obtain ⟨hlen, hget⟩ := applyStatus_get dom.toggleables m ts happ
  refine ⟨rfl, hlen, ?_, ?_, ?_⟩
  · intro ref v
    constructor
    · intro hmv
      cases hf : recLookup st.ifFunctionsByRef ref with
      | none =>
        have hno := (updateFuncs_lookup_none st.ifFunctionsByRef st.selectedValsByPrefId
          fs m hup ref hf).2
        rw [hno] at hmv
        simp at hmv
      | some f =>
        obtain ⟨w, hw, hl', hm'⟩ := updateFuncs_lookup_found st.ifFunctionsByRef
          st.selectedValsByPrefId fs m hnd hup ref f hf
        rw [hm'] at hmv
        by_cases hfw : f.value = w
        · rw [if_pos hfw] at hmv
          simp at hmv
        · rw [if_neg hfw] at hmv
          injection hmv with hv
          exact ⟨f, { tree := f.tree, value := w }, rfl, hl', hfw, hv.symm⟩
    · rintro ⟨f, g, hf, hg, hne, hv⟩
      obtain ⟨w, hw, hl', hm'⟩ := updateFuncs_lookup_found st.ifFunctionsByRef
        st.selectedValsByPrefId fs m hnd hup ref f hf
      rw [hl'] at hg
      injection hg with hg2
      have hgw : g.value = w := by rw [← hg2]
      have hfw : ¬(f.value = w) := by
        rw [← hgw]
        exact hne
      rw [hm', if_neg hfw]
      rw [hv, hgw]
  · intro i hi hi' ref href
    have happi := hget i hi hi'
    constructor
    · intro hmn
      exact applyToggleable_unchanged m _ _ ref href hmn happi
    · intro v hmv
      exact applyToggleable_toggled m _ _ ref v href hmv happi
  · intro r v hm2 i hi hi'
    subst hm2
    have happi := hget i hi hi'
    obtain ⟨ref, hd, hne, hd'⟩ := applyToggleable_ok_elim [(r, v)] _ _ happi
    by_cases hrr : r = ref
    · subst hrr
      have hlook : recLookup [(r, v)] r = some v := by simp [recLookup]
      have htog := applyToggleable_toggled [(r, v)] _ _ r v hd hlook happi
      constructor
      · intro hneq
        rw [htog] at hneq
        exact ⟨hd,
          (bool_not_ne_iff v (hasClass (dom.toggleables.get ⟨i, hi⟩) hiddenClass)).mp hneq⟩
      · rintro ⟨hdr, hold⟩
        rw [htog, hold]
        cases v <;> simp
    · have hlook : recLookup [(r, v)] ref = none := by simp [recLookup, hrr]
      have hunch := applyToggleable_unchanged [(r, v)] _ _ ref hd hlook happi
      constructor
      · intro hneq
        exfalso
        rw [hunch] at hneq
        exact hneq rfl
      · rintro ⟨hdr, hold⟩
        rw [hd] at hdr
        injection hdr with he
        exact absurd he.symm hrr

/-- Witness for C2: a pass where exactly one of two expressions changed at
concrete inputs. -/
theorem rerenderPageContent_minimal_diff_witness :
    (({ pagePrefsConfig := some [], prefOptionsConfigPresent := true,
        chooserElementPresent := true, selectedValsByPrefId := [("os", "linux")],
        ifFunctionsByRef := [("a", { tree := CondTree.eqCmp "os" "linux", value := true }),
                            ("b", { tree := CondTree.eqCmp "os" "windows", value := false })] } :
      RendererState)).ifFunctionsByRef =
      [("a", { tree := CondTree.eqCmp "os" "linux", value := true }),
       ("b", { tree := CondTree.eqCmp "os" "windows", value := false })] ∧
    (({ toggleables := [{ dataIf := some "a", classes := [] },
                        { dataIf := some "b", classes := [] }],
        headers := [], rightNavPresent := true, rightNavHtml := "" } :
      Dom)).toggleables.length =
      (({ toggleables := [{ dataIf := some "a", classes := ["markdoc__hidden"] },
                          { dataIf := some "b", classes := [] }],
          headers := [], rightNavPresent := true, rightNavHtml := "" } :
        Dom)).toggleables.length := by
  constructor
  · exact (rerenderPageContent_minimal_diff
      { pagePrefsConfig := some [], prefOptionsConfigPresent := true,
        chooserElementPresent := true, selectedValsByPrefId := [("os", "linux")],
        ifFunctionsByRef := [("a", { tree := CondTree.eqCmp "os" "linux", value := false }),
                            ("b", { tree := CondTree.eqCmp "os" "windows", value := false })] }
      { pagePrefsConfig := some [], prefOptionsConfigPresent := true,
        chooserElementPresent := true, selectedValsByPrefId := [("os", "linux")],
        ifFunctionsByRef := [("a", { tree := CondTree.eqCmp "os" "linux", value := true }),
                            ("b", { tree := CondTree.eqCmp "os" "windows", value := false })] }
      { toggleables := [{ dataIf := some "a", classes := ["markdoc__hidden"] },
                        { dataIf := some "b", classes := [] }],
        headers := [], rightNavPresent := true, rightNavHtml := "" }
      { toggleables := [{ dataIf := some "a", classes := [] },
                        { dataIf := some "b", classes := [] }],
        headers := [], rightNavPresent := true, rightNavHtml := "" }
      [("a", { tree := CondTree.eqCmp "os" "linux", value := true }),
       ("b", { tree := CondTree.eqCmp "os" "windows", value := false })]
      [("a", true)]
      (by decide) rfl rfl).1
  · exact (rerenderPageContent_minimal_diff
      { pagePrefsConfig := some [], prefOptionsConfigPresent := true,
        chooserElementPresent := true, selectedValsByPrefId := [("os", "linux")],
        ifFunctionsByRef := [("a", { tree := CondTree.eqCmp "os" "linux", value := false }),
                            ("b", { tree := CondTree.eqCmp "os" "windows", value := false })] }
      { pagePrefsConfig := some [], prefOptionsConfigPresent := true,
        chooserElementPresent := true, selectedValsByPrefId := [("os", "linux")],
        ifFunctionsByRef := [("a", { tree := CondTree.eqCmp "os" "linux", value := true }),
                            ("b", { tree := CondTree.eqCmp "os" "windows", value := false })] }
      { toggleables := [{ dataIf := some "a", classes := ["markdoc__hidden"] },
                        { dataIf := some "b", classes := [] }],
        headers := [], rightNavPresent := true, rightNavHtml := "" }
      { toggleables := [{ dataIf := some "a", classes := [] },
                        { dataIf := some "b", classes := [] }],
        headers := [], rightNavPresent := true, rightNavHtml := "" }
      [("a", { tree := CondTree.eqCmp "os" "linux", value := true }),
       ("b", { tree := CondTree.eqCmp "os" "windows", value := false })]
      [("a", true)]
      (by decide) rfl rfl).2.1

end ClientRendererModel
